import Mathlib

/-
Verification of the my-chip8 interpreter core (src/lib.rs).

Shallow embedding conventions:
- The Rust struct Chip8 becomes a Lean structure whose array fields
  (memory, display, stack, v, keypad) are modelled as functions Nat → Nat;
  the source arrays are fixed-size, and every source indexing operation
  that can go out of bounds (a Rust panic) is modelled by an explicit
  bound check returning none, so fallible operations return Option Chip8.
- u8 / u16 arithmetic is Nat with explicit % 256 / % 65536 where the
  source wraps (wrapping_add, overflowing_add/sub, u16 += in release
  mode).  Saturating subtraction of u8 timers is Nat.sub.
- internal_timer is an f64 in the source, but the program only ever
  stores the integral values 0.0, 1.0, ..., 10.0 in it (initialized to
  0.0, reset to 600.0/60.0 = 10.0, decremented by 1.0 while positive),
  and f64 arithmetic and comparison on these small integers is exact,
  so it is modelled as a Nat.
- rand::thread_rng().gen_range(0..=255) in set_reg_to_rand is external
  nondeterminism; the drawn byte is passed in as an explicit argument
  rnd to execute_inst / run_cycle.
- load_rom reads a file from disk in the source; the byte sequence it
  obtains is passed in directly as a list.
-/

def DISPLAY_WIDTH : Nat := 64

def DISPLAY_HEIGHT : Nat := 32

def MEM_SIZE : Nat := 4096

def START_ADDR : Nat := 0x200

def SPRITE_START : Nat := 0x50

def SPRITE_SIZE : Nat := 5

def CYCLES_PER_SECOND : Nat := 600

def TIMER_FREQ : Nat := 60

/-- Pointwise update of a function modelling an array write. -/
def upd (f : Nat → Nat) (k v : Nat) : Nat → Nat :=
  fun j => if j = k then v else f j

/-- Write a list of bytes into a memory function at consecutive addresses. -/
def writeBytes (m : Nat → Nat) (a : Nat) : List Nat → (Nat → Nat)
  | [] => m
  | b :: rest => writeBytes (upd m a b) (a + 1) rest

/-- The machine state of src/lib.rs (struct Chip8). -/
structure Chip8 where
  memory : Nat → Nat
  display : Nat → Nat
  pc : Nat
  i : Nat
  stack : Nat → Nat
  sp : Nat
  delay_timer : Nat
  sound_timer : Nat
  v : Nat → Nat
  draw_flag : Bool
  keypad : Nat → Nat
  internal_timer : Nat

/-- The built-in font table written by Chip8::new. -/
def fontData : List Nat :=
  [0xf0, 0x90, 0x90, 0x90, 0xf0,
   0x20, 0x60, 0x20, 0x20, 0x70,
   0xf0, 0x10, 0xf0, 0x80, 0xf0,
   0xf0, 0x10, 0xf0, 0x10, 0xf0,
   0x90, 0x90, 0xf0, 0x10, 0x10,
   0xf0, 0x80, 0xf0, 0x10, 0xf0,
   0xf0, 0x80, 0xf0, 0x90, 0xf0,
   0xf0, 0x10, 0x20, 0x40, 0x40,
   0xf0, 0x90, 0xf0, 0x90, 0xf0,
   0xf0, 0x90, 0xf0, 0x10, 0xf0,
   0xf0, 0x90, 0xf0, 0x90, 0x90,
   0xe0, 0x90, 0xe0, 0x90, 0xe0,
   0xf0, 0x80, 0x80, 0x80, 0xf0,
   0xe0, 0x90, 0x90, 0x90, 0xe0,
   0xf0, 0x80, 0xf0, 0x80, 0xf0,
   0xf0, 0x80, 0xf0, 0x80, 0x80]

/-- Chip8::new: zeroed state, font at 0x50..0x9f, pc = 0x200. -/
def Chip8.new : Chip8 :=
  { memory := writeBytes (fun _ => 0) SPRITE_START fontData
    display := fun _ => 0
    pc := START_ADDR
    i := 0
    stack := fun _ => 0
    sp := 0
    delay_timer := 0
    sound_timer := 0
    v := fun _ => 0
    draw_flag := false
    keypad := fun _ => 0
    internal_timer := 0 }

/-- load_rom: the source slices self.memory[0x200 .. 0x200 + rom.len()],
which is a panic (modelled none) when 0x200 + rom.len() > 4096, and
otherwise copies the bytes verbatim. -/
def load_rom (s : Chip8) (rom : List Nat) : Option Chip8 :=
  if 4096 < START_ADDR + rom.length then none
  else some { s with memory := writeBytes s.memory START_ADDR rom }

def clear_display (s : Chip8) : Chip8 :=
  { s with display := fun _ => 0, draw_flag := true }

/-- ret: sp -= 1 underflows when sp = 0, and stack[sp] is out of bounds
when sp - 1 >= 16; both are panics (none). -/
def ret (s : Chip8) : Option Chip8 :=
  if s.sp = 0 ∨ 16 < s.sp then none
  else some { s with sp := s.sp - 1
                     pc := s.stack (s.sp - 1)
                     stack := upd s.stack (s.sp - 1) 0 }

def jump (s : Chip8) (addr : Nat) : Chip8 :=
  { s with pc := addr }

/-- call: stack[sp] panics (none) when sp >= 16. -/
def call (s : Chip8) (addr : Nat) : Option Chip8 :=
  if 16 ≤ s.sp then none
  else some { s with stack := upd s.stack s.sp s.pc, pc := addr, sp := s.sp + 1 }

def skip_if_reg_eq_imm (s : Chip8) (x nn : Nat) : Chip8 :=
  if s.v x = nn then { s with pc := (s.pc + 2) % 65536 } else s

def skip_if_reg_neq_imm (s : Chip8) (x nn : Nat) : Chip8 :=
  if s.v x ≠ nn then { s with pc := (s.pc + 2) % 65536 } else s

def skip_if_reg_eq_reg (s : Chip8) (x y : Nat) : Chip8 :=
  if s.v x = s.v y then { s with pc := (s.pc + 2) % 65536 } else s

def set_reg_to_imm (s : Chip8) (x nn : Nat) : Chip8 :=
  { s with v := upd s.v x nn }

def add_imm_to_reg (s : Chip8) (x nn : Nat) : Chip8 :=
  { s with v := upd s.v x ((s.v x + nn) % 256) }

def set_reg_to_reg (s : Chip8) (x y : Nat) : Chip8 :=
  { s with v := upd s.v x (s.v y) }

def bitwise_or (s : Chip8) (x y : Nat) : Chip8 :=
  { s with v := upd s.v x (Nat.lor (s.v x) (s.v y)) }

def bitwise_and (s : Chip8) (x y : Nat) : Chip8 :=
  { s with v := upd s.v x (Nat.land (s.v x) (s.v y)) }

def bitwise_xor (s : Chip8) (x y : Nat) : Chip8 :=
  { s with v := upd s.v x (Nat.xor (s.v x) (s.v y)) }

/-- 8XY4: overflowing_add, then VF = carry. -/
def add_reg_to_reg (s : Chip8) (x y : Nat) : Chip8 :=
  { s with v := upd (upd s.v x ((s.v x + s.v y) % 256)) 15
                    (if 255 < s.v x + s.v y then 1 else 0) }

/-- 8XY5: overflowing_sub, then VF = NOT borrow. -/
def sub_reg_from_reg (s : Chip8) (x y : Nat) : Chip8 :=
  { s with v := upd (upd s.v x ((s.v x + 256 - s.v y) % 256)) 15
                    (if s.v x < s.v y then 0 else 1) }

/-- 8XY6: VF = low bit of v[x] first, then v[x] >>= 1 (the second read
sees the first write when x = 15, exactly as in the source). -/
def right_shift (s : Chip8) (x : Nat) : Chip8 :=
  let v1 := upd s.v 15 (Nat.land (s.v x) 1)
  { s with v := upd v1 x (Nat.shiftRight (v1 x) 1) }

/-- 8XY7 as written in the source: overflowing_sub of v[y] with v[y]
(not v[x]), so the result is always 0 and the borrow never happens. -/
def rsb_reg_from_reg (s : Chip8) (x y : Nat) : Chip8 :=
  { s with v := upd (upd s.v x ((s.v y + 256 - s.v y) % 256)) 15
                    (if s.v y < s.v y then 0 else 1) }

/-- 8XYE: VF = v[x] >> 7 first, then v[x] <<= 1 (u8 truncation). -/
def left_shift (s : Chip8) (x : Nat) : Chip8 :=
  let v1 := upd s.v 15 (Nat.shiftRight (s.v x) 7)
  { s with v := upd v1 x ((Nat.shiftLeft (v1 x) 1) % 256) }

def skip_if_reg_neq_reg (s : Chip8) (x y : Nat) : Chip8 :=
  if s.v x ≠ s.v y then { s with pc := (s.pc + 2) % 65536 } else s

def set_i_to_addr (s : Chip8) (addr : Nat) : Chip8 :=
  { s with i := addr }

def jump_with_offset (s : Chip8) (addr : Nat) : Chip8 :=
  { s with pc := (addr + s.v 0) % 65536 }

/-- CXNN with the random byte rnd supplied by the environment. -/
def set_reg_to_rand (rnd : Nat) (s : Chip8) (x nn : Nat) : Chip8 :=
  { s with v := upd s.v x (Nat.land rnd nn) }

/-- Inner column loop of draw.  Processes the sprite bits high-to-low:
for a set bit, if the display index reaches 64*32 the loop breaks
before drawing; otherwise the collision flag is updated and the pixel
is XOR-toggled; in either case the loop then breaks when x + col has
reached the display width (note: after the draw, as in the source). -/
def drawCols (sprite x yrow : Nat) : List Nat → ((Nat → Nat) × Nat) → ((Nat → Nat) × Nat)
  | [], dv => dv
  | c :: rest, (d, vf) =>
    if Nat.land sprite (Nat.shiftRight 0x80 c) ≠ 0 then
      if 64 * 32 ≤ x + c + yrow * 64 then (d, vf)
      else
        let idx := x + c + yrow * 64
        let vf2 := if d idx = 1 then 1 else vf
        let d2 := upd d idx (Nat.xor (d idx) 1)
        if 64 ≤ x + c then (d2, vf2)
        else drawCols sprite x yrow rest (d2, vf2)
    else
      if 64 ≤ x + c then (d, vf)
      else drawCols sprite x yrow rest (d, vf)

/-- Outer row loop of draw.  Reads memory[i + row] (panic, i.e. none,
when out of bounds), runs the column loop, and breaks after processing
a row when y + row has reached the display height. -/
def drawRows (mem : Nat → Nat) (i x y : Nat) : List Nat → ((Nat → Nat) × Nat) → Option ((Nat → Nat) × Nat)
  | [], dv => some dv
  | r :: rest, dv =>
    if 4096 ≤ i + r then none
    else
      let dv2 := drawCols (mem (i + r)) x (y + r) (List.range 8) dv
      if 32 ≤ y + r then some dv2
      else drawRows mem i x y rest dv2

/-- DXYN. -/
def draw (s : Chip8) (x y n : Nat) : Option Chip8 :=
  match drawRows s.memory s.i (s.v x % DISPLAY_WIDTH) (s.v y % DISPLAY_HEIGHT)
      (List.range n) (s.display, 0) with
  | none => none
  | some (d, vf) =>
    some { s with display := d, v := upd s.v 15 vf, draw_flag := true }

/-- EX9E: keypad[v[x]] panics (none) when v[x] >= 16. -/
def skip_if_key_pressed (s : Chip8) (x : Nat) : Option Chip8 :=
  if 16 ≤ s.v x then none
  else some (if s.keypad (s.v x) ≠ 0 then { s with pc := (s.pc + 2) % 65536 } else s)

/-- EXA1: keypad[v[x]] panics (none) when v[x] >= 16. -/
def skip_if_key_not_pressed (s : Chip8) (x : Nat) : Option Chip8 :=
  if 16 ≤ s.v x then none
  else some (if s.keypad (s.v x) = 0 then { s with pc := (s.pc + 2) % 65536 } else s)

def get_delay_timer (s : Chip8) (x : Nat) : Chip8 :=
  { s with v := upd s.v x s.delay_timer }

/-- First index in the list whose keypad entry is nonzero (the break in
the source loop of get_key). -/
def firstKey (kp : Nat → Nat) : List Nat → Option Nat
  | [] => none
  | k :: rest => if kp k ≠ 0 then some k else firstKey kp rest

/-- FX0A: write the lowest pressed key into v[x], or rewind pc by two
(u16 wrapping) when no key is pressed. -/
def get_key (s : Chip8) (x : Nat) : Chip8 :=
  match firstKey s.keypad (List.range 16) with
  | some k => { s with v := upd s.v x k }
  | none => { s with pc := (s.pc + 65536 - 2) % 65536 }

def set_delay_timer (s : Chip8) (x : Nat) : Chip8 :=
  { s with delay_timer := s.v x }

def set_sound_timer (s : Chip8) (x : Nat) : Chip8 :=
  { s with sound_timer := s.v x }

/-- FX1E: u16 addition on i, no masking to the 4096-byte address space. -/
def add_reg_to_i (s : Chip8) (x : Nat) : Chip8 :=
  { s with i := (s.i + s.v x) % 65536 }

def set_i_to_font (s : Chip8) (x : Nat) : Chip8 :=
  { s with i := s.v x * SPRITE_SIZE + SPRITE_START }

/-- FX33: three memory writes at i, i+1, i+2; out of bounds is a panic. -/
def set_bdc (s : Chip8) (x : Nat) : Option Chip8 :=
  if 4096 ≤ s.i + 2 then none
  else
    let xv := s.v x
    some { s with memory := upd (upd (upd s.memory s.i (xv / 100))
                                     (s.i + 1) ((xv / 10) % 10))
                                (s.i + 2) (xv % 10) }

/-- FX55: writes memory[i + j] for j = 0..=x; the source loop panics at
the first out-of-bounds index, which exists exactly when i + x >= 4096. -/
def reg_dump (s : Chip8) (x : Nat) : Option Chip8 :=
  if 4096 ≤ s.i + x then none
  else some { s with memory :=
    ((List.range (x + 1)).foldl (fun m j => upd m (s.i + j) (s.v j)) s.memory) }

/-- FX65: reads memory[i + j] for j = 0..=x with the same bound. -/
def reg_load (s : Chip8) (x : Nat) : Option Chip8 :=
  if 4096 ≤ s.i + x then none
  else some { s with v :=
    ((List.range (x + 1)).foldl (fun vv j => upd vv j (s.memory (s.i + j))) s.v) }

/-- fetch_inst: reads the two bytes at pc (panic, i.e. none, when pc + 1
is out of bounds), advances pc by two, big-endian combines. -/
def fetch_inst (s : Chip8) : Option (Chip8 × Nat) :=
  if 4096 ≤ s.pc + 1 then none
  else some ({ s with pc := (s.pc + 2) % 65536 },
             Nat.lor (Nat.shiftLeft (s.memory s.pc) 8) (s.memory (s.pc + 1)))

/-- execute_inst: decode the word and dispatch, mirroring the nested
match of the source.  Branches where the source has a panic are none;
the family-0 catch-all is a silent no-op (some s), and families 5 and 9
dispatch without inspecting the low nibble, exactly as in the source. -/
def execute_inst (rnd : Nat) (s : Chip8) (op : Nat) : Option Chip8 :=
  let x := (Nat.land op 0x0f00) >>> 8
  let y := (Nat.land op 0x00f0) >>> 4
  let n := Nat.land op 0x000f
  let nn := Nat.land op 0x00ff
  let nnn := Nat.land op 0x0fff
  let fam := (Nat.land op 0xf000) >>> 12
  if fam = 0 then
    (if nnn = 0x0e0 then some (clear_display s)
     else if nnn = 0x0ee then ret s
     else some s)
  else if fam = 1 then some (jump s nnn)
  else if fam = 2 then call s nnn
  else if fam = 3 then some (skip_if_reg_eq_imm s x nn)
  else if fam = 4 then some (skip_if_reg_neq_imm s x nn)
  else if fam = 5 then some (skip_if_reg_eq_reg s x y)
  else if fam = 6 then some (set_reg_to_imm s x nn)
  else if fam = 7 then some (add_imm_to_reg s x nn)
  else if fam = 8 then
    (if n = 0 then some (set_reg_to_reg s x y)
     else if n = 1 then some (bitwise_or s x y)
     else if n = 2 then some (bitwise_and s x y)
     else if n = 3 then some (bitwise_xor s x y)
     else if n = 4 then some (add_reg_to_reg s x y)
     else if n = 5 then some (sub_reg_from_reg s x y)
     else if n = 6 then some (right_shift s x)
     else if n = 7 then some (rsb_reg_from_reg s x y)
     else if n = 0xe then some (left_shift s x)
     else none)
  else if fam = 9 then some (skip_if_reg_neq_reg s x y)
  else if fam = 0xa then some (set_i_to_addr s nnn)
  else if fam = 0xb then some (jump_with_offset s nnn)
  else if fam = 0xc then some (set_reg_to_rand rnd s x nn)
  else if fam = 0xd then draw s x y n
  else if fam = 0xe then
    (if nn = 0x9e then skip_if_key_pressed s x
     else if nn = 0xa1 then skip_if_key_not_pressed s x
     else none)
  else if fam = 0xf then
    (if nn = 0x07 then some (get_delay_timer s x)
     else if nn = 0x0a then some (get_key s x)
     else if nn = 0x15 then some (set_delay_timer s x)
     else if nn = 0x18 then some (set_sound_timer s x)
     else if nn = 0x1e then some (add_reg_to_i s x)
     else if nn = 0x29 then some (set_i_to_font s x)
     else if nn = 0x33 then set_bdc s x
     else if nn = 0x55 then reg_dump s x
     else if nn = 0x65 then reg_load s x
     else none)
  else none

/-- The timer block at the top of run_cycle: while the internal counter
is positive it is decremented; on reaching zero it is reset to
CYCLES_PER_SECOND / TIMER_FREQ = 10 and both timers saturating-decrement. -/
def tickTimers (s : Chip8) : Chip8 :=
  if 0 < s.internal_timer then { s with internal_timer := s.internal_timer - 1 }
  else { s with internal_timer := CYCLES_PER_SECOND / TIMER_FREQ
                delay_timer := s.delay_timer - 1
                sound_timer := s.sound_timer - 1 }

/-- run_cycle: clear the draw flag, tick the timers, fetch, execute. -/
def run_cycle (rnd : Nat) (s : Chip8) : Option Chip8 :=
  match fetch_inst (tickTimers { s with draw_flag := false }) with
  | none => none
  | some (s2, op) => execute_inst rnd s2 op

/-- key_down: keypad[key] panics (none) when key >= 16. -/
def key_down (s : Chip8) (key : Nat) : Option Chip8 :=
  if 16 ≤ key then none else some { s with keypad := upd s.keypad key 1 }

/-- key_up: keypad[key] panics (none) when key >= 16. -/
def key_up (s : Chip8) (key : Nat) : Option Chip8 :=
  if 16 ≤ key then none else some { s with keypad := upd s.keypad key 0 }

/-- Iterated run_cycle with an externally supplied stream of random bytes. -/
def cyclesN (rnds : Nat → Nat) (s : Chip8) : Nat → Option Chip8
  | 0 => some s
  | t + 1 =>
    match cyclesN rnds s t with
    | none => none
    | some s1 => run_cycle (rnds t) s1

/-- The instruction word that a cycle started in state s will execute. -/
def opcodeAt (s : Chip8) : Nat :=
  Nat.lor (Nat.shiftLeft (s.memory s.pc) 8) (s.memory (s.pc + 1))

/-- Whether an instruction word writes a timer (FX15 or FX18). -/
def timerSetB (op : Nat) : Bool :=
  ((Nat.land op 0xf000) >>> 12 == 15) &&
    ((Nat.land op 0x00ff == 0x15) || (Nat.land op 0x00ff == 0x18))

/-- Number of occurrences of an index in a toggle list. -/
def countN (j : Nat) : List Nat → Nat
  | [] => 0
  | k :: rest => (if j = k then 1 else 0) + countN j rest

/-- Apply a list of XOR-toggles to a display function, left to right. -/
def applyT : List Nat → (Nat → Nat) → (Nat → Nat)
  | [], d => d
  | k :: rest, d => applyT rest (upd d k (Nat.xor (d k) 1))

/-- The collision flag produced by processing a toggle list over a
display, starting from flag vf (1 once any toggled cell was already 1). -/
def vfT : List Nat → (Nat → Nat) → Nat → Nat
  | [], _, vf => vf
  | k :: rest, d, vf => vfT rest (upd d k (Nat.xor (d k) 1)) (if d k = 1 then 1 else vf)

/-- The display indices toggled by one sprite row, mirroring the break
structure of drawCols. -/
def colsT (sprite x yrow : Nat) : List Nat → List Nat
  | [] => []
  | c :: rest =>
    if Nat.land sprite (Nat.shiftRight 0x80 c) ≠ 0 then
      if 64 * 32 ≤ x + c + yrow * 64 then []
      else (x + c + yrow * 64) ::
        (if 64 ≤ x + c then [] else colsT sprite x yrow rest)
    else
      (if 64 ≤ x + c then [] else colsT sprite x yrow rest)

/-- The display indices toggled by a whole draw, mirroring the break
structure of drawRows; none when a sprite-row read is out of bounds. -/
def rowsT (mem : Nat → Nat) (i x y : Nat) : List Nat → Option (List Nat)
  | [] => some []
  | r :: rest =>
    if 4096 ≤ i + r then none
    else
      if 32 ≤ y + r then some (colsT (mem (i + r)) x (y + r) (List.range 8))
      else (rowsT mem i x y rest).map
        (fun t2 => colsT (mem (i + r)) x (y + r) (List.range 8) ++ t2)

/-- Fresh machine with sprite byte 0x80 at I = 0 (the font area start
is at 0x50, so address 0 is free). -/
def c8s : Chip8 := { Chip8.new with memory := upd Chip8.new.memory 0 0x80 }

/-- The machine after one D001 draw at (0, 0). -/
def c8s1 : Chip8 := (execute_inst 0 c8s 0xD001).getD c8s

/-- The machine after the same draw a second time. -/
def c8s2 : Chip8 := (execute_inst 0 c8s1 0xD001).getD c8s

/-- Fresh machine with the jump-to-self program 1200 at 0x200 and both
timers set to 5 (as if set before the measured cycles begin). -/
def c6s : Chip8 :=
  { Chip8.new with memory := writeBytes Chip8.new.memory 0x200 [0x12, 0x00],
                   delay_timer := 5, sound_timer := 5 }

/-- The machine after one cycle of the jump-to-self program. -/
def c6s1 : Chip8 := (cyclesN (fun _ => 0) c6s 1).getD c6s

/-- State with V0 = 1 and V1 = 3, for exercising 8XY7. -/
def c1s : Chip8 := { Chip8.new with v := upd (upd (fun _ => 0) 0 1) 1 3 }

/-- State reached from a fresh machine (V1 = 255) by executing AFFF,
so that the address register holds 0xFFF. -/
def c4s1 : Chip8 :=
  (execute_inst 0 { Chip8.new with v := upd (fun _ => 0) 1 255 } 0xAFFF).getD Chip8.new

/-- State with V0 = 63, V1 = 0 and the sprite byte 0xC0 at I = 0x300. -/
def c5s : Chip8 :=
  { Chip8.new with v := upd (fun _ => 0) 0 63, i := 0x300,
                   memory := upd (fun _ => 0) 0x300 0xC0 }

/-- Fresh machine with the program F30A (wait for key into V3) at 0x200. -/
def c9s : Chip8 := { Chip8.new with memory := writeBytes Chip8.new.memory 0x200 [0xF3, 0x0A] }

/-- The same machine with key 5 held down. -/
def c9sKey : Chip8 := { c9s with keypad := upd (fun _ => 0) 5 1 }

/-- State with V0 = 200 and V1 = 100, for exercising 8XY4 / 8XY5. -/
def c7s : Chip8 := { Chip8.new with v := upd (upd (fun _ => 0) 0 200) 1 100 }

theorem upd_self (f : Nat → Nat) (w k : Nat) : upd f k w k = w := by simp [upd]

theorem upd_ne (f : Nat → Nat) (w : Nat) {j k : Nat} (h : j ≠ k) : upd f k w j = f j := by
  simp [upd, h]

/-- C1: the claim says 8XY7 sets register X to V[Y] - V[X] (wrapping)
with VF = 1 iff V[Y] >= V[X].  The code instead computes
V[Y] - V[Y]: with V0 = 1, V1 = 3, executing 0x8017 yields V0 = 0 and
VF = 1, not the claimed V0 = (3 - 1) mod 256 = 2. -/
theorem c1_rsb_code_behavior :
    (execute_inst 0 c1s 0x8017).map (fun t => (t.v 0, t.v 15)) = some (0, 1) ∧
      ¬ (execute_inst 0 c1s 0x8017).map (fun t => (t.v 0, t.v 15)) = some (2, 1) := by
  constructor
  · rfl
  · decide

/-- C2: the claim says every undefined instruction word yields an
explicit UnknownInstructionError, never a silent no-op and never
process termination.  In the code: 0x5121 (family 5, N = 1) silently
executes with 5XY0 skip semantics (on a fresh machine V1 = V2 so the
skip fires, pc 0x200 -> 0x204 after fetch would be 0x202 here since
execute_inst sees the post-fetch pc; on the raw state pc goes
0x200 -> 0x202); 0x0123 (family 0, NNN not 0x0E0/0x0EE) is a silent
no-op returning the state unchanged; 0x800F (family 8, unknown
selector) panics, i.e. terminates the hosting process (modelled none). -/
theorem c2_unknown_opcode_code_behavior :
    (execute_inst 0 Chip8.new 0x5121).map (fun t => t.pc) = some 0x202 ∧
      execute_inst 0 Chip8.new 0x0123 = some Chip8.new ∧
      execute_inst 0 Chip8.new 0x800f = none := by
  refine ⟨rfl, rfl, rfl⟩

/-- C3: the claim says an over-long byte sequence fails with a capacity
error (an explicit result).  The code performs an unchecked slice copy:
a 3585-byte sequence panics (none, process termination, no error
value), while sequences up to 3584 bytes are copied verbatim to 0x200. -/
theorem c3_load_code_behavior :
    load_rom Chip8.new (List.replicate 3585 0) = none ∧
      (load_rom Chip8.new [0xAB, 0xCD]).map
        (fun t => (t.memory 0x200, t.memory 0x201, t.memory 0x202)) =
        some (0xAB, 0xCD, 0) := by
  constructor
  · have h : 4096 < START_ADDR + (List.replicate 3585 (0:Nat)).length := by
      rw [List.length_replicate]; decide
    unfold load_rom
    rw [if_pos h]
  · rfl

/-- C4: the claim says every computed address is masked or validated so
that no out-of-range access occurs.  In the code, AFFF sets I = 0xFFF
(reachable, c4s1), and then FX55 with X = 1 indexes memory[0x1000],
which is out of range and panics (none); FX1E leaves I unmasked at
0xFFF + 255 = 4350 > 4095. -/
theorem c4_address_code_behavior :
    execute_inst 0 c4s1 0xF155 = none ∧
      (execute_inst 0 c4s1 0xF11E).map (fun t => t.i) = some 4350 := by
  refine ⟨rfl, rfl⟩

/-- C5: the claim says sprite bits whose column x + col reaches the
display width are clipped and no pixel is ever written at a wrapped
position on another row.  With V0 = 63, V1 = 0 and sprite byte 0xC0
(bits at columns 0 and 1), executing 0xD011 draws the first bit at
index 63 (row 0) and the second bit at x + col = 64, i.e. display
index 64 = row 1, column 0 - a wrapped position on the next row, which
the claim says must stay 0. -/
theorem c5_draw_wrap_code_behavior :
    (execute_inst 0 c5s 0xD011).map (fun t => (t.display 63, t.display 64)) =
        some (1, 1) ∧
      ¬ (execute_inst 0 c5s 0xD011).map (fun t => (t.display 63, t.display 64)) =
        some (1, 0) := by
  constructor
  · rfl
  · decide

/-- C7: for 8-bit register values a = V[X] (X not 15) and b = V[Y],
8XY4 sets V[X] = (a + b) mod 256 with VF = 1 iff a + b > 255, and 8XY5
sets V[X] = (a - b) mod 256 (stated both in wrapped Nat form and as
integer subtraction mod 256) with VF = 1 iff a >= b; other registers
are untouched. -/
theorem c7_add_sub_flags (rnd : Nat) (s : Chip8) (op : Nat)
    (hx : (Nat.land op 0x0f00) >>> 8 ≠ 15)
    (ha : s.v ((Nat.land op 0x0f00) >>> 8) < 256)
    (hb : s.v ((Nat.land op 0x00f0) >>> 4) < 256)
    (hf : (Nat.land op 0xf000) >>> 12 = 8) :
    (Nat.land op 0x000f = 4 →
      ∃ s1, execute_inst rnd s op = some s1 ∧
        s1.v ((Nat.land op 0x0f00) >>> 8) =
          (s.v ((Nat.land op 0x0f00) >>> 8) + s.v ((Nat.land op 0x00f0) >>> 4)) % 256 ∧
        s1.v 15 = (if 255 < s.v ((Nat.land op 0x0f00) >>> 8) + s.v ((Nat.land op 0x00f0) >>> 4)
                   then 1 else 0) ∧
        (∀ j, j ≠ (Nat.land op 0x0f00) >>> 8 → j ≠ 15 → s1.v j = s.v j)) ∧
    (Nat.land op 0x000f = 5 →
      ∃ s1, execute_inst rnd s op = some s1 ∧
        s1.v ((Nat.land op 0x0f00) >>> 8) =
          (s.v ((Nat.land op 0x0f00) >>> 8) + 256 - s.v ((Nat.land op 0x00f0) >>> 4)) % 256 ∧
        (s1.v ((Nat.land op 0x0f00) >>> 8) : Int) =
          ((s.v ((Nat.land op 0x0f00) >>> 8) : Int) - (s.v ((Nat.land op 0x00f0) >>> 4) : Int)) % 256 ∧
        s1.v 15 = (if s.v ((Nat.land op 0x00f0) >>> 4) ≤ s.v ((Nat.land op 0x0f00) >>> 8)
                   then 1 else 0) ∧
        (∀ j, j ≠ (Nat.land op 0x0f00) >>> 8 → j ≠ 15 → s1.v j = s.v j)) := by
  constructor
  · intro hn
    refine ⟨add_reg_to_reg s ((Nat.land op 0x0f00) >>> 8) ((Nat.land op 0x00f0) >>> 4), ?_, ?_, ?_, ?_⟩
    · simp only [execute_inst]
      rw [hf, hn]
      norm_num
    · simp only [add_reg_to_reg]
      rw [upd_ne _ _ hx, upd_self]
    · simp only [add_reg_to_reg]
      rw [upd_self]
    · intro j hj hj15
      simp only [add_reg_to_reg]
      rw [upd_ne _ _ hj15, upd_ne _ _ hj]
  · intro hn
    have hres : (sub_reg_from_reg s ((Nat.land op 0x0f00) >>> 8) ((Nat.land op 0x00f0) >>> 4)).v
        ((Nat.land op 0x0f00) >>> 8) =
        (s.v ((Nat.land op 0x0f00) >>> 8) + 256 - s.v ((Nat.land op 0x00f0) >>> 4)) % 256 := by
      simp only [sub_reg_from_reg]
      rw [upd_ne _ _ hx, upd_self]
    refine ⟨sub_reg_from_reg s ((Nat.land op 0x0f00) >>> 8) ((Nat.land op 0x00f0) >>> 4),
      ?_, hres, ?_, ?_, ?_⟩
    · simp only [execute_inst]
      rw [hf, hn]
      norm_num
    · rw [hres]
      omega
    · simp only [sub_reg_from_reg]
      rw [upd_self]
      split <;> split <;> omega
    · intro j hj hj15
      simp only [sub_reg_from_reg]
      rw [upd_ne _ _ hj15, upd_ne _ _ hj]

/-- Witness for C7 at V0 = 200, V1 = 100, instruction 0x8014. -/
theorem c7_add_sub_flags_witness :
    (Nat.land 0x8014 0x000f = 4 →
      ∃ s1, execute_inst 0 c7s 0x8014 = some s1 ∧
        s1.v ((Nat.land 0x8014 0x0f00) >>> 8) =
          (c7s.v ((Nat.land 0x8014 0x0f00) >>> 8) + c7s.v ((Nat.land 0x8014 0x00f0) >>> 4)) % 256 ∧
        s1.v 15 = (if 255 < c7s.v ((Nat.land 0x8014 0x0f00) >>> 8) + c7s.v ((Nat.land 0x8014 0x00f0) >>> 4)
                   then 1 else 0) ∧
        (∀ j, j ≠ (Nat.land 0x8014 0x0f00) >>> 8 → j ≠ 15 → s1.v j = c7s.v j)) ∧
    (Nat.land 0x8014 0x000f = 5 →
      ∃ s1, execute_inst 0 c7s 0x8014 = some s1 ∧
        s1.v ((Nat.land 0x8014 0x0f00) >>> 8) =
          (c7s.v ((Nat.land 0x8014 0x0f00) >>> 8) + 256 - c7s.v ((Nat.land 0x8014 0x00f0) >>> 4)) % 256 ∧
        (s1.v ((Nat.land 0x8014 0x0f00) >>> 8) : Int) =
          ((c7s.v ((Nat.land 0x8014 0x0f00) >>> 8) : Int) - (c7s.v ((Nat.land 0x8014 0x00f0) >>> 4) : Int)) % 256 ∧
        s1.v 15 = (if c7s.v ((Nat.land 0x8014 0x00f0) >>> 4) ≤ c7s.v ((Nat.land 0x8014 0x0f00) >>> 8)
                   then 1 else 0) ∧
        (∀ j, j ≠ (Nat.land 0x8014 0x0f00) >>> 8 → j ≠ 15 → s1.v j = c7s.v j)) :=
  c7_add_sub_flags 0 c7s 0x8014 (by decide) (by decide) (by decide) (by decide)

/-- C10: key_down sets keypad entry k and key_up clears it (k in
[0,15]), and both leave every other keypad entry and every other state
component (memory, display, pc, i, stack, sp, timers, registers, draw
flag, internal counter) unchanged. -/
theorem c10_key_frame (s : Chip8) (k : Nat) (hk : k < 16) :
    (∃ s1, key_down s k = some s1 ∧ s1.keypad k = 1 ∧
      (∀ j, j ≠ k → s1.keypad j = s.keypad j) ∧
      s1.memory = s.memory ∧ s1.display = s.display ∧ s1.pc = s.pc ∧
      s1.i = s.i ∧ s1.stack = s.stack ∧ s1.sp = s.sp ∧
      s1.delay_timer = s.delay_timer ∧ s1.sound_timer = s.sound_timer ∧
      s1.v = s.v ∧ s1.draw_flag = s.draw_flag ∧
      s1.internal_timer = s.internal_timer) ∧
    (∃ s2, key_up s k = some s2 ∧ s2.keypad k = 0 ∧
      (∀ j, j ≠ k → s2.keypad j = s.keypad j) ∧
      s2.memory = s.memory ∧ s2.display = s.display ∧ s2.pc = s.pc ∧
      s2.i = s.i ∧ s2.stack = s.stack ∧ s2.sp = s.sp ∧
      s2.delay_timer = s.delay_timer ∧ s2.sound_timer = s.sound_timer ∧
      s2.v = s.v ∧ s2.draw_flag = s.draw_flag ∧
      s2.internal_timer = s.internal_timer) := by
  constructor
  · refine ⟨{ s with keypad := upd s.keypad k 1 }, ?_, upd_self _ _ _, ?_,
      rfl, rfl, rfl, rfl, rfl, rfl, rfl, rfl, rfl, rfl, rfl⟩
    · simp only [key_down]
      rw [if_neg (by omega)]
    · intro j hj
      exact upd_ne _ _ hj
  · refine ⟨{ s with keypad := upd s.keypad k 0 }, ?_, upd_self _ _ _, ?_,
      rfl, rfl, rfl, rfl, rfl, rfl, rfl, rfl, rfl, rfl, rfl⟩
    · simp only [key_up]
      rw [if_neg (by omega)]
    · intro j hj
      exact upd_ne _ _ hj

/-- Witness for C10 at key 3 on a fresh machine. -/
theorem c10_key_frame_witness :
    (∃ s1, key_down Chip8.new 3 = some s1 ∧ s1.keypad 3 = 1 ∧
      (∀ j, j ≠ 3 → s1.keypad j = Chip8.new.keypad j) ∧
      s1.memory = Chip8.new.memory ∧ s1.display = Chip8.new.display ∧ s1.pc = Chip8.new.pc ∧
      s1.i = Chip8.new.i ∧ s1.stack = Chip8.new.stack ∧ s1.sp = Chip8.new.sp ∧
      s1.delay_timer = Chip8.new.delay_timer ∧ s1.sound_timer = Chip8.new.sound_timer ∧
      s1.v = Chip8.new.v ∧ s1.draw_flag = Chip8.new.draw_flag ∧
      s1.internal_timer = Chip8.new.internal_timer) ∧
    (∃ s2, key_up Chip8.new 3 = some s2 ∧ s2.keypad 3 = 0 ∧
      (∀ j, j ≠ 3 → s2.keypad j = Chip8.new.keypad j) ∧
      s2.memory = Chip8.new.memory ∧ s2.display = Chip8.new.display ∧ s2.pc = Chip8.new.pc ∧
      s2.i = Chip8.new.i ∧ s2.stack = Chip8.new.stack ∧ s2.sp = Chip8.new.sp ∧
      s2.delay_timer = Chip8.new.delay_timer ∧ s2.sound_timer = Chip8.new.sound_timer ∧
      s2.v = Chip8.new.v ∧ s2.draw_flag = Chip8.new.draw_flag ∧
      s2.internal_timer = Chip8.new.internal_timer) :=
  c10_key_frame Chip8.new 3 (by decide)

theorem firstKey_none (kp : Nat → Nat) (l : List Nat) (h : ∀ k ∈ l, kp k = 0) :
    firstKey kp l = none := by
  induction l with
  | nil => rfl
  | cons a rest ih =>
    have ha : kp a = 0 := h a (by simp)
    simp only [firstKey, ha, ne_eq, not_true_eq_false, not_false_eq_true, ite_false,
      if_false]
    exact ih (fun k hk => h k (List.mem_cons_of_mem a hk))

theorem firstKey_append_none (kp : Nat → Nat) (l1 l2 : List Nat)
    (h : firstKey kp l1 = none) : firstKey kp (l1 ++ l2) = firstKey kp l2 := by
  induction l1 with
  | nil => rfl
  | cons a rest ih =>
    by_cases ha : kp a = 0
    · have h2 : firstKey kp rest = none := by
        simpa [firstKey, ha] using h
      simpa [firstKey, ha] using ih h2
    · simp [firstKey, ha] at h
  
theorem firstKey_append_some (kp : Nat → Nat) (l1 l2 : List Nat) (k : Nat)
    (h : firstKey kp l1 = some k) : firstKey kp (l1 ++ l2) = some k := by
  induction l1 with
  | nil => simp [firstKey] at h
  | cons a rest ih =>
    by_cases ha : kp a = 0
    · have h2 : firstKey kp rest = some k := by
        simpa [firstKey, ha] using h
      simpa [firstKey, ha] using ih h2
    · have h2 : a = k := by
        simpa [firstKey, ha] using h
      subst h2
      simp [firstKey, ha]

theorem firstKey_range (n : Nat) (kp : Nat → Nat) (k : Nat) (hk : k < n) (hne : kp k ≠ 0)
    (hmin : ∀ j, j < k → kp j = 0) : firstKey kp (List.range n) = some k := by
  induction n with
  | zero => omega
  | succ m ih =>
    rw [List.range_succ]
    rcases Nat.lt_or_ge k m with hlt | hge
    · exact firstKey_append_some kp _ _ k (ih hlt)
    · have hkm : k = m := by omega
      subst hkm
      have hnone : firstKey kp (List.range k) = none :=
        firstKey_none kp (List.range k) (by
          intro j hj
          exact hmin j (List.mem_range.mp hj))
      rw [firstKey_append_none kp _ _ hnone]
      simp [firstKey, hne]

theorem tickTimers_proj (s : Chip8) :
    (tickTimers s).pc = s.pc ∧ (tickTimers s).memory = s.memory ∧
    (tickTimers s).keypad = s.keypad ∧ (tickTimers s).v = s.v := by
  unfold tickTimers
  split <;> exact ⟨rfl, rfl, rfl, rfl⟩

theorem decodeF0A : ∀ rx, rx < 16 →
    (Nat.land (Nat.lor (Nat.shiftLeft (240 + rx) 8) 10) 0xf000) >>> 12 = 15 ∧
    Nat.land (Nat.lor (Nat.shiftLeft (240 + rx) 8) 10) 0x00ff = 0x0a ∧
    (Nat.land (Nat.lor (Nat.shiftLeft (240 + rx) 8) 10) 0x0f00) >>> 8 = rx := by
  decide

/-- C9: when the next instruction is FX0A (memory at pc holds 0xFX,
0x0A), a cycle with no key down leaves the program counter pointing at
the same instruction, and a cycle with some key down advances the
program counter by exactly one instruction and stores the
lowest-numbered pressed key in register X. -/
theorem c9_wait_key (rnd : Nat) (s : Chip8) (rx : Nat) (hrx : rx < 16)
    (hpc : s.pc + 1 < 4096)
    (hhi : s.memory s.pc = 240 + rx)
    (hlo : s.memory (s.pc + 1) = 10) :
    ((∀ k, k < 16 → s.keypad k = 0) →
      ∃ s1, run_cycle rnd s = some s1 ∧ s1.pc = s.pc) ∧
    (∀ k, k < 16 → s.keypad k ≠ 0 → (∀ j, j < k → s.keypad j = 0) →
      ∃ s1, run_cycle rnd s = some s1 ∧ s1.pc = s.pc + 2 ∧ s1.v rx = k) := by
  obtain ⟨hfam, hnn, hxf⟩ := decodeF0A rx hrx
  obtain ⟨htpc, htmem, htkp, htv⟩ := tickTimers_proj { s with draw_flag := false }
  have hrun : run_cycle rnd s =
      execute_inst rnd
        { tickTimers { s with draw_flag := false } with
            pc := ((tickTimers { s with draw_flag := false }).pc + 2) % 65536 }
        (Nat.lor (Nat.shiftLeft (240 + rx) 8) 10) := by
    simp only [run_cycle, fetch_inst, htpc, htmem]
    rw [if_neg (by omega)]
    simp only [htpc, htmem, hhi, hlo]
  have hexec : execute_inst rnd
      { tickTimers { s with draw_flag := false } with
          pc := ((tickTimers { s with draw_flag := false }).pc + 2) % 65536 }
      (Nat.lor (Nat.shiftLeft (240 + rx) 8) 10) =
      some (get_key
        { tickTimers { s with draw_flag := false } with
            pc := ((tickTimers { s with draw_flag := false }).pc + 2) % 65536 } rx) := by
    simp only [execute_inst]
    rw [hfam, hnn, hxf]
    norm_num
  constructor
  · intro hnokey
    have hfk : firstKey s.keypad (List.range 16) = none :=
      firstKey_none _ _ (fun k hk => hnokey k (List.mem_range.mp hk))
    refine ⟨_, by rw [hrun, hexec], ?_⟩
    simp only [get_key, htkp, hfk, htpc]
    omega
  · intro k hk16 hkne hkmin
    have hfk : firstKey s.keypad (List.range 16) = some k :=
      firstKey_range 16 s.keypad k hk16 hkne hkmin
    refine ⟨_, by rw [hrun, hexec], ?_, ?_⟩
    · simp only [get_key, htkp, hfk, htpc]
      omega
    · simp only [get_key, htkp, hfk, htv]
      exact upd_self _ _ _

/-- Witness for C9: program F30A at 0x200; no key held, then key 5 held. -/
theorem c9_wait_key_witness :
    (∃ s1, run_cycle 0 c9s = some s1 ∧ s1.pc = 0x200) ∧
    (∃ s1, run_cycle 0 c9sKey = some s1 ∧ s1.pc = 0x202 ∧ s1.v 3 = 5) := by
  constructor
  · exact (c9_wait_key 0 c9s 3 (by decide) (by decide) (by decide) (by decide)).1 (by decide)
  · exact (c9_wait_key 0 c9sKey 3 (by decide) (by decide) (by decide) (by decide)).2 5
      (by decide) (by decide) (by decide)

theorem xor_flip (a c : Nat) :
    Nat.xor (Nat.xor a 1) (c % 2) = Nat.xor a ((1 + c) % 2) := by
  rcases Nat.mod_two_eq_zero_or_one c with h | h
  · have h1 : (1 + c) % 2 = 1 := by omega
    rw [h, h1]
    show (a ^^^ 1) ^^^ 0 = a ^^^ 1
    simp
  · have h1 : (1 + c) % 2 = 0 := by omega
    rw [h, h1]
    show (a ^^^ 1) ^^^ 1 = a ^^^ 0
    rw [Nat.xor_assoc]
    simp

theorem applyT_eq (T : List Nat) : ∀ (d : Nat → Nat) (j : Nat),
    applyT T d j = Nat.xor (d j) (countN j T % 2) := by
  induction T with
  | nil =>
    intro d j
    show d j = Nat.xor (d j) (countN j [] % 2)
    show d j = Nat.xor (d j) 0
    exact (Nat.xor_zero _).symm
  | cons k rest ih =>
    intro d j
    by_cases hjk : j = k
    · subst hjk
      rw [applyT, ih, upd_self]
      simp only [countN, if_pos rfl]
      exact xor_flip (d j) (countN j rest)
    · rw [applyT, ih, upd_ne _ _ hjk]
      simp [countN, hjk]

theorem applyT_applyT (T : List Nat) (d : Nat → Nat) (j : Nat) :
    applyT T (applyT T d) j = d j := by
  rw [applyT_eq, applyT_eq]
  show (d j ^^^ countN j T % 2) ^^^ countN j T % 2 = d j
  rw [Nat.xor_assoc]
  simp

theorem vfT_one (T : List Nat) : ∀ d : Nat → Nat, vfT T d 1 = 1 := by
  induction T with
  | nil => intro d; rfl
  | cons k rest ih =>
    intro d
    rw [vfT]
    simp only [ite_self]
    exact ih _

theorem applyT_append (T1 T2 : List Nat) : ∀ d : Nat → Nat,
    applyT (T1 ++ T2) d = applyT T2 (applyT T1 d) := by
  induction T1 with
  | nil => intro d; rfl
  | cons k rest ih =>
    intro d
    rw [List.cons_append, applyT, applyT]
    exact ih _

theorem vfT_append (T1 T2 : List Nat) : ∀ (d : Nat → Nat) (vf : Nat),
    vfT (T1 ++ T2) d vf = vfT T2 (applyT T1 d) (vfT T1 d vf) := by
  induction T1 with
  | nil => intro d vf; rfl
  | cons k rest ih =>
    intro d vf
    rw [List.cons_append, vfT, vfT, applyT]
    exact ih _ _

theorem drawCols_toggles (sprite x yrow : Nat) : ∀ (l : List Nat) (d : Nat → Nat) (vf : Nat),
    drawCols sprite x yrow l (d, vf) =
      (applyT (colsT sprite x yrow l) d, vfT (colsT sprite x yrow l) d vf) := by
  intro l
  induction l with
  | nil => intro d vf; rfl
  | cons c rest ih =>
    intro d vf
    rw [drawCols, colsT]
    by_cases hbit : Nat.land sprite (Nat.shiftRight 0x80 c) ≠ 0
    · simp only [if_pos hbit]
      by_cases hidx : 64 * 32 ≤ x + c + yrow * 64
      · simp only [if_pos hidx]
        rfl
      · simp only [if_neg hidx]
        by_cases hxc : 64 ≤ x + c
        · simp only [if_pos hxc]
          rfl
        · simp only [if_neg hxc]
          rw [ih]
          rfl
    · simp only [if_neg hbit]
      by_cases hxc : 64 ≤ x + c
      · simp only [if_pos hxc]
        rfl
      · simp only [if_neg hxc]
        rw [ih]

theorem drawRows_toggles (mem : Nat → Nat) (i x y : Nat) :
    ∀ (l : List Nat) (d : Nat → Nat) (vf : Nat),
    drawRows mem i x y l (d, vf) =
      (rowsT mem i x y l).map (fun T => (applyT T d, vfT T d vf)) := by
  intro l
  induction l with
  | nil => intro d vf; rfl
  | cons r rest ih =>
    intro d vf
    rw [drawRows, rowsT]
    by_cases hb : 4096 ≤ i + r
    · simp only [if_pos hb]
      rfl
    · simp only [if_neg hb]
      rw [drawCols_toggles]
      by_cases hy : 32 ≤ y + r
      · simp only [if_pos hy]
        rfl
      · simp only [if_neg hy]
        rw [ih]
        cases h2 : rowsT mem i x y rest with
        | none => rfl
        | some T2 =>
          simp only [Option.map_some, Option.map_map]
          simp [applyT_append, vfT_append]

theorem xor_cancel_outer (a m : Nat) (hm : m = 0 ∨ m = 1) :
    Nat.xor (Nat.xor (Nat.xor a 1) m) 1 = Nat.xor a m := by
  rcases hm with h | h <;> subst h
  · show ((a ^^^ 1) ^^^ 0) ^^^ 1 = a ^^^ 0
    simp [Nat.xor_assoc]
  · show ((a ^^^ 1) ^^^ 1) ^^^ 1 = a ^^^ 1
    rw [Nat.xor_assoc a 1 1]
    simp

theorem vfT_collision (T : List Nat) : ∀ d : Nat → Nat,
    (∃ j, d j = 0 ∧ applyT T d j = 1) → vfT T (applyT T d) 0 = 1 := by
  induction T with
  | nil =>
    intro d h
    obtain ⟨j, h0, h1⟩ := h
    rw [show applyT [] d = d from rfl] at h1
    omega
  | cons k rest ih =>
    intro d h
    obtain ⟨j, h0, h1⟩ := h
    rw [show applyT (k :: rest) d = applyT rest (upd d k (Nat.xor (d k) 1)) from rfl] at h1 ⊢
    rw [show vfT (k :: rest) (applyT rest (upd d k (Nat.xor (d k) 1))) 0 =
        vfT rest
          (upd (applyT rest (upd d k (Nat.xor (d k) 1))) k
            (Nat.xor (applyT rest (upd d k (Nat.xor (d k) 1)) k) 1))
          (if applyT rest (upd d k (Nat.xor (d k) 1)) k = 1 then 1 else 0) from rfl]
    by_cases hD : applyT rest (upd d k (Nat.xor (d k) 1)) k = 1
    · rw [if_pos hD]
      exact vfT_one _ _
    · rw [if_neg hD]
      have hj0k : j ≠ k := by
        intro he
        subst he
        exact hD h1
      have hcomm : upd (applyT rest (upd d k (Nat.xor (d k) 1))) k
          (Nat.xor (applyT rest (upd d k (Nat.xor (d k) 1)) k) 1) = applyT rest d := by
        funext j2
        by_cases hj2 : j2 = k
        · subst hj2
          rw [upd_self, applyT_eq, applyT_eq, upd_self]
          exact xor_cancel_outer (d j2) (countN j2 rest % 2) (by omega)
        · rw [upd_ne _ _ hj2, applyT_eq, applyT_eq, upd_ne _ _ hj2]
      rw [hcomm]
      apply ih
      refine ⟨j, h0, ?_⟩
      rw [applyT_eq] at h1 ⊢
      rw [upd_ne _ _ hj0k] at h1
      exact h1

theorem draw_double (s s1 s2 : Chip8) (rx ry n : Nat)
    (h1 : draw s rx ry n = some s1)
    (h2 : draw s1 rx ry n = some s2)
    (hvx : s1.v rx = s.v rx) (hvy : s1.v ry = s.v ry) :
    (∀ j, s2.display j = s.display j) ∧
    ((∃ j, s.display j = 0 ∧ s1.display j = 1) → s2.v 15 = 1) := by
  unfold draw at h1
  rw [drawRows_toggles] at h1
  cases hT : rowsT s.memory s.i (s.v rx % DISPLAY_WIDTH) (s.v ry % DISPLAY_HEIGHT)
      (List.range n) with
  | none => rw [hT] at h1; simp at h1
  | some T =>
    rw [hT] at h1
    rw [Option.map_some'] at h1
    have h1' := Option.some.inj h1
    have hdisp1 : s1.display = applyT T s.display := by rw [← h1']
    have hmem1 : s1.memory = s.memory := by rw [← h1']
    have hi1 : s1.i = s.i := by rw [← h1']
    have hv1 : s1.v = upd s.v 15 (vfT T s.display 0) := by rw [← h1']
    unfold draw at h2
    rw [drawRows_toggles] at h2
    rw [hmem1, hi1, hvx, hvy, hdisp1] at h2
    rw [hT, Option.map_some'] at h2
    have h2' := Option.some.inj h2
    have hdisp2 : s2.display = applyT T (applyT T s.display) := by rw [← h2']
    have hv2 : s2.v = upd s1.v 15 (vfT T (applyT T s.display) 0) := by rw [← h2']
    constructor
    · intro j
      rw [hdisp2]
      exact applyT_applyT T s.display j
    · intro hEx
      rw [hv2, upd_self]
      apply vfT_collision
      obtain ⟨j, hj0, hj1⟩ := hEx
      exact ⟨j, hj0, hdisp1 ▸ hj1⟩

/-- C8: executing the same DXYN instruction twice in a row, with the
coordinate registers reading the same values both times (the "same
registers" premise of the claim), restores the display exactly, and the
second draw reports a collision (VF = 1) whenever the first draw set at
least one pixel. -/
theorem c8_draw_double_xor (rnd1 rnd2 : Nat) (s s1 s2 : Chip8) (op : Nat)
    (hf : (Nat.land op 0xf000) >>> 12 = 13)
    (h1 : execute_inst rnd1 s op = some s1)
    (h2 : execute_inst rnd2 s1 op = some s2)
    (hvx : s1.v ((Nat.land op 0x0f00) >>> 8) = s.v ((Nat.land op 0x0f00) >>> 8))
    (hvy : s1.v ((Nat.land op 0x00f0) >>> 4) = s.v ((Nat.land op 0x00f0) >>> 4)) :
    (∀ j, s2.display j = s.display j) ∧
    ((∃ j, s.display j = 0 ∧ s1.display j = 1) → s2.v 15 = 1) := by
  simp only [execute_inst] at h1 h2
  rw [hf] at h1 h2
  norm_num at h1 h2
  exact draw_double s s1 s2 _ _ _ h1 h2 hvx hvy

/-- Witness for C8: sprite 0x80 drawn twice at (0, 0); the first draw
sets pixel 0 and the second reports the collision and clears it. -/
theorem c8_draw_double_xor_witness :
    ((∀ j, c8s2.display j = c8s.display j) ∧
      ((∃ j, c8s.display j = 0 ∧ c8s1.display j = 1) → c8s2.v 15 = 1)) ∧
    c8s1.display 0 = 1 ∧ c8s.display 0 = 0 ∧ c8s2.v 15 = 1 :=
  ⟨c8_draw_double_xor 0 0 c8s c8s1 c8s2 0xD001 (by decide) (by rfl) (by rfl)
      (by decide) (by decide),
   by decide, by decide, by decide⟩

theorem ret_timers (s t : Chip8) (h : ret s = some t) :
    t.internal_timer = s.internal_timer ∧ t.delay_timer = s.delay_timer ∧
    t.sound_timer = s.sound_timer := by
  unfold ret at h
  split at h
  · exact Option.noConfusion h
  · obtain rfl := Option.some.inj h
    exact ⟨rfl, rfl, rfl⟩

theorem call_timers (s t : Chip8) (a : Nat) (h : call s a = some t) :
    t.internal_timer = s.internal_timer ∧ t.delay_timer = s.delay_timer ∧
    t.sound_timer = s.sound_timer := by
  unfold call at h
  split at h
  · exact Option.noConfusion h
  · obtain rfl := Option.some.inj h
    exact ⟨rfl, rfl, rfl⟩

theorem skip_key_timers (s t : Chip8) (x : Nat)
    (h : skip_if_key_pressed s x = some t ∨ skip_if_key_not_pressed s x = some t) :
    t.internal_timer = s.internal_timer ∧ t.delay_timer = s.delay_timer ∧
    t.sound_timer = s.sound_timer := by
  rcases h with h | h
  · unfold skip_if_key_pressed at h
    split at h
    · exact Option.noConfusion h
    · obtain rfl := Option.some.inj h
      refine ⟨?_, ?_, ?_⟩ <;> (split <;> rfl)
  · unfold skip_if_key_not_pressed at h
    split at h
    · exact Option.noConfusion h
    · obtain rfl := Option.some.inj h
      refine ⟨?_, ?_, ?_⟩ <;> (split <;> rfl)

theorem set_bdc_timers (s t : Chip8) (x : Nat) (h : set_bdc s x = some t) :
    t.internal_timer = s.internal_timer ∧ t.delay_timer = s.delay_timer ∧
    t.sound_timer = s.sound_timer := by
  unfold set_bdc at h
  split at h
  · exact Option.noConfusion h
  · obtain rfl := Option.some.inj h
    exact ⟨rfl, rfl, rfl⟩

theorem reg_dump_timers (s t : Chip8) (x : Nat) (h : reg_dump s x = some t) :
    t.internal_timer = s.internal_timer ∧ t.delay_timer = s.delay_timer ∧
    t.sound_timer = s.sound_timer := by
  unfold reg_dump at h
  split at h
  · exact Option.noConfusion h
  · obtain rfl := Option.some.inj h
    exact ⟨rfl, rfl, rfl⟩

theorem reg_load_timers (s t : Chip8) (x : Nat) (h : reg_load s x = some t) :
    t.internal_timer = s.internal_timer ∧ t.delay_timer = s.delay_timer ∧
    t.sound_timer = s.sound_timer := by
  unfold reg_load at h
  split at h
  · exact Option.noConfusion h
  · obtain rfl := Option.some.inj h
    exact ⟨rfl, rfl, rfl⟩

theorem draw_timers (s t : Chip8) (x y n : Nat) (h : draw s x y n = some t) :
    t.internal_timer = s.internal_timer ∧ t.delay_timer = s.delay_timer ∧
    t.sound_timer = s.sound_timer := by
  unfold draw at h
  split at h
  · exact Option.noConfusion h
  · obtain rfl := Option.some.inj h
    exact ⟨rfl, rfl, rfl⟩

theorem get_key_timers (s : Chip8) (x : Nat) :
    (get_key s x).internal_timer = s.internal_timer ∧
    (get_key s x).delay_timer = s.delay_timer ∧
    (get_key s x).sound_timer = s.sound_timer := by
  unfold get_key
  split <;> exact ⟨rfl, rfl, rfl⟩

set_option maxHeartbeats 2000000 in
theorem execute_inst_timers (rnd : Nat) (s : Chip8) (op : Nat) (t : Chip8)
    (h : execute_inst rnd s op = some t) :
    t.internal_timer = s.internal_timer ∧
    (timerSetB op = false →
      t.delay_timer = s.delay_timer ∧ t.sound_timer = s.sound_timer) := by
  have hf16 : (Nat.land op 0xf000) >>> 12 < 16 := by
    have h1 : Nat.land op 0xf000 ≤ 0xf000 := Nat.and_le_right
    rw [Nat.shiftRight_eq_div_pow]
    omega
  simp only [execute_inst] at h
  set f := (Nat.land op 0xf000) >>> 12 with hfdef
  interval_cases f
  all_goals norm_num at h
  all_goals iterate 10 (all_goals try (split at h))
  all_goals try (rw [Option.some.injEq] at h)
  all_goals first
    | exact Option.noConfusion h
    | (exact (fun trip => ⟨trip.1, fun _ => ⟨trip.2.1, trip.2.2⟩⟩) (ret_timers _ _ h))
    | (exact (fun trip => ⟨trip.1, fun _ => ⟨trip.2.1, trip.2.2⟩⟩) (call_timers _ _ _ h))
    | (exact (fun trip => ⟨trip.1, fun _ => ⟨trip.2.1, trip.2.2⟩⟩) (skip_key_timers _ _ _ (Or.inl h)))
    | (exact (fun trip => ⟨trip.1, fun _ => ⟨trip.2.1, trip.2.2⟩⟩) (skip_key_timers _ _ _ (Or.inr h)))
    | (exact (fun trip => ⟨trip.1, fun _ => ⟨trip.2.1, trip.2.2⟩⟩) (set_bdc_timers _ _ _ h))
    | (exact (fun trip => ⟨trip.1, fun _ => ⟨trip.2.1, trip.2.2⟩⟩) (reg_dump_timers _ _ _ h))
    | (exact (fun trip => ⟨trip.1, fun _ => ⟨trip.2.1, trip.2.2⟩⟩) (reg_load_timers _ _ _ h))
    | (exact (fun trip => ⟨trip.1, fun _ => ⟨trip.2.1, trip.2.2⟩⟩) (draw_timers _ _ _ _ _ h))
    | (subst h
       exact ⟨rfl, fun _ => ⟨rfl, rfl⟩⟩)
    | (subst h
       exact (fun trip => ⟨trip.1, fun _ => ⟨trip.2.1, trip.2.2⟩⟩) (get_key_timers _ _))
    | (subst h
       refine ⟨?_, fun _ => ⟨?_, ?_⟩⟩ <;>
         (simp only [skip_if_reg_eq_imm, skip_if_reg_neq_imm, skip_if_reg_eq_reg,
            skip_if_reg_neq_reg]
          split <;> rfl))
    | (subst h
       refine ⟨rfl, fun htb => absurd htb ?_⟩
       simp only [timerSetB, ← hfdef]
       simp_all)

theorem tick_mem (s : Chip8) : (tickTimers s).memory = s.memory := by
  unfold tickTimers
  split <;> rfl

theorem tick_pc (s : Chip8) : (tickTimers s).pc = s.pc := by
  unfold tickTimers
  split <;> rfl

theorem tick_pos (s : Chip8) (h0 : 0 < s.internal_timer) :
    (tickTimers s).internal_timer = s.internal_timer - 1 ∧
    (tickTimers s).delay_timer = s.delay_timer ∧
    (tickTimers s).sound_timer = s.sound_timer := by
  unfold tickTimers
  rw [if_pos h0]
  exact ⟨rfl, rfl, rfl⟩

theorem tick_zero (s : Chip8) (h0 : s.internal_timer = 0) :
    (tickTimers s).internal_timer = 10 ∧
    (tickTimers s).delay_timer = s.delay_timer - 1 ∧
    (tickTimers s).sound_timer = s.sound_timer - 1 := by
  unfold tickTimers
  rw [if_neg (by omega)]
  exact ⟨rfl, rfl, rfl⟩

theorem run_cycle_timers (rnd : Nat) (s t : Chip8) (h : run_cycle rnd s = some t)
    (hnt : timerSetB (opcodeAt s) = false) :
    (0 < s.internal_timer →
      t.internal_timer = s.internal_timer - 1 ∧
      t.delay_timer = s.delay_timer ∧ t.sound_timer = s.sound_timer) ∧
    (s.internal_timer = 0 →
      t.internal_timer = 10 ∧
      t.delay_timer = s.delay_timer - 1 ∧ t.sound_timer = s.sound_timer - 1) := by
  unfold run_cycle at h
  cases hfe : fetch_inst (tickTimers { s with draw_flag := false }) with
  | none =>
    rw [hfe] at h
    exact Option.noConfusion h
  | some pair =>
    rw [hfe] at h
    obtain ⟨s2, w⟩ := pair
    unfold fetch_inst at hfe
    split at hfe
    · exact Option.noConfusion hfe
    · have hpair := Option.some.inj hfe
      have hs2 : s2 = { tickTimers { s with draw_flag := false } with
          pc := ((tickTimers { s with draw_flag := false }).pc + 2) % 65536 } :=
        (congrArg Prod.fst hpair).symm
      have hw : w = Nat.lor
          (Nat.shiftLeft ((tickTimers { s with draw_flag := false }).memory
            (tickTimers { s with draw_flag := false }).pc) 8)
          ((tickTimers { s with draw_flag := false }).memory
            ((tickTimers { s with draw_flag := false }).pc + 1)) :=
        (congrArg Prod.snd hpair).symm
      have hw2 : w = opcodeAt s := by
        rw [hw, tick_mem, tick_pc]
        rfl
      subst hs2
      have hexec := execute_inst_timers rnd _ w t h
      have hint : t.internal_timer = (tickTimers { s with draw_flag := false }).internal_timer :=
        hexec.1
      have hds := hexec.2 (hw2 ▸ hnt)
      constructor
      · intro hp
        have hti := tick_pos { s with draw_flag := false } (by exact hp)
        exact ⟨by rw [hint, hti.1], by rw [hds.1, hti.2.1], by rw [hds.2, hti.2.2]⟩
      · intro hz
        have hti := tick_zero { s with draw_flag := false } (by exact hz)
        exact ⟨by rw [hint, hti.1], by rw [hds.1, hti.2.1], by rw [hds.2, hti.2.2]⟩

/-- C6 (amended): starting from a machine whose internal counter is 0
(as constructed), over T successful cycles in which no executed
instruction is FX15 or FX18, both timers undergo their saturating
decrement exactly ceil(T / 11) = (T + 10) / 11 times - the counter
starts at 0 so the first cycle fires, and each reset to
CYCLES_PER_SECOND / TIMER_FREQ = 10 is followed by ten countdown cycles
plus the firing cycle, an 11-cycle period - not the claimed
floor(T * 60 / R) = floor(T / 10) times. -/
theorem c6_cadence_amended (rnds : Nat → Nat) (s : Chip8) (T : Nat) (sT : Chip8)
    (h0 : s.internal_timer = 0)
    (hT : cyclesN rnds s T = some sT)
    (hnt : ∀ k t, k < T → cyclesN rnds s k = some t → timerSetB (opcodeAt t) = false) :
    sT.delay_timer = s.delay_timer - min s.delay_timer ((T + 10) / 11) ∧
    sT.sound_timer = s.sound_timer - min s.sound_timer ((T + 10) / 11) ∧
    sT.internal_timer = 10 - (T + 10) % 11 := by
  induction T generalizing sT with
  | zero =>
    obtain rfl := Option.some.inj hT
    refine ⟨by omega, by omega, by omega⟩
  | succ T ih =>
    simp only [cyclesN] at hT
    cases hk : cyclesN rnds s T with
    | none =>
      rw [hk] at hT
      exact Option.noConfusion hT
    | some sk =>
      rw [hk] at hT
      have ihk := ih sk hk (fun k t hkk hck => hnt k t (by omega) hck)
      have hrt := run_cycle_timers (rnds T) sk sT hT (hnt T sk (by omega) hk)
      have e1 := Nat.div_add_mod (T + 10) 11
      have e2 := Nat.div_add_mod (T + 11) 11
      have hm1 : (T + 10) % 11 < 11 := Nat.mod_lt _ (by omega)
      have hm2 : (T + 11) % 11 < 11 := Nat.mod_lt _ (by omega)
      rcases Nat.lt_or_ge ((T + 10) % 11) 10 with hr | hr
      · have hpos : 0 < sk.internal_timer := by omega
        obtain ⟨hi, hd, hs⟩ := hrt.1 hpos
        refine ⟨?_, ?_, ?_⟩ <;> omega
      · have hz : sk.internal_timer = 0 := by omega
        obtain ⟨hi, hd, hs⟩ := hrt.2 hz
        refine ⟨?_, ?_, ?_⟩ <;> omega

/-- C6 counterexample: with R = 600 the claim predicts
floor(1 * 60 / 600) = 0 decrements over T = 1 cycles, so the delay
timer should still be 5; the code decrements on the very first cycle
(internal counter starts at 0), leaving 4. -/
theorem c6_cadence_counterexample :
    (cyclesN (fun _ => 0) c6s 1).map (fun t => t.delay_timer) = some 4 ∧
    ¬ (cyclesN (fun _ => 0) c6s 1).map (fun t => t.delay_timer) =
        some (c6s.delay_timer - 1 * 60 / 600) := by
  constructor
  · rfl
  · decide

theorem c6_cadence_amended_witness :
    cyclesN (fun _ => 0) c6s 1 = some c6s1 ∧
    c6s1.delay_timer = c6s.delay_timer - min c6s.delay_timer ((1 + 10) / 11) ∧
    c6s1.sound_timer = c6s.sound_timer - min c6s.sound_timer ((1 + 10) / 11) ∧
    c6s1.internal_timer = 10 - (1 + 10) % 11 :=
  ⟨rfl,
   c6_cadence_amended (fun _ => 0) c6s 1 c6s1 rfl rfl (by
     intro k t hk hck
     interval_cases k
     obtain rfl := Option.some.inj
       ((show cyclesN (fun _ => 0) c6s 0 =
           some ((cyclesN (fun _ => 0) c6s 0).getD c6s) from rfl).symm.trans hck)
     decide)⟩
